import Mathlib

/-!
Shallow embedding of the selection/ordering core of the Breakfast Carousel
menu application.

Sources embedded:
- src/src/pages/Index.tsx: top-level state (menu, selectedItems, categories),
  handleOrderItem (selection toggle), handleAddMenuItem (catalog mutator),
  category initialization, and the mobile/desktop view dispatch.
- src/src/components/AddItemDialog.tsx: handleSubmit validation.
- src/src/components/ui/collapsible.tsx (second unit, MenuCarousel):
  windowed carousel projector.
- src/src/components/MenuCategoryView.tsx: flat grid projector.
- src/src/components/OrderSummary.tsx: order aggregator.

JavaScript numbers are modelled by `JsNum`: NaN, the two infinities, or an
exact finite value carried as a rational (the app only parses, adds and
compares numbers; no float-rounding behaviour is relevant to the claims).
Item ids are integers in the data and are kept as integers by the mutator,
so they are embedded as `Int` and compared with decidable equality, which
matches strict equality on integral JavaScript numbers.
-/

/-- JavaScript number value as used by the application. -/
inductive JsNum where
  | nan : JsNum
  | posInf : JsNum
  | negInf : JsNum
  | finite : ℚ → JsNum
deriving DecidableEq, Repr

/-- The JavaScript isNaN predicate on an already-converted number. -/
def JsNum.isNaN : JsNum → Bool
  | .nan => true
  | _ => false

/-- Whether a JavaScript number is a finite value. -/
def JsNum.isFinite : JsNum → Bool
  | .finite _ => true
  | _ => false

/-- The rational carried by a finite JavaScript number (0 otherwise). -/
def JsNum.toQ : JsNum → ℚ
  | .finite q => q
  | _ => 0

/-- JavaScript addition on numbers: NaN propagates, opposite infinities give
NaN, an infinity absorbs finite values, finite values add exactly. -/
def jsAdd : JsNum → JsNum → JsNum
  | .nan, _ => .nan
  | _, .nan => .nan
  | .posInf, .negInf => .nan
  | .negInf, .posInf => .nan
  | .posInf, _ => .posInf
  | _, .posInf => .posInf
  | .negInf, _ => .negInf
  | _, .negInf => .negInf
  | .finite a, .finite b => .finite (a + b)

/-- The MenuItem interface shared by all components: id, name, price,
category, icon (emoji glyph), icon-name, optional image. -/
structure MenuItem where
  id : ℤ
  name : String
  price : JsNum
  category : String
  icon : String
  iconName : String
  image : Option String := none
deriving DecidableEq, Repr

/-- A draft item as passed to handleAddMenuItem: a MenuItem without id
(the TypeScript type Omit MenuItem id). -/
structure DraftItem where
  name : String
  price : JsNum
  category : String
  icon : String
  iconName : String
  image : Option String := none
deriving DecidableEq, Repr

/-- Numeric value of a decimal digit character. -/
def digitVal (c : Char) : ℕ := c.toNat - '0'.toNat

/-- Split a character list into its longest prefix of decimal digits and
the rest. -/
def takeDigits : List Char → List Char × List Char
  | [] => ([], [])
  | c :: cs =>
    if c.isDigit then
      let p := takeDigits cs
      (c :: p.1, p.2)
    else ([], c :: cs)

/-- Value of a digit list read in base 10. -/
def digitsToNat (ds : List Char) : ℕ :=
  ds.foldl (fun a c => 10 * a + digitVal c) 0

/-- Whitespace skipped by the JavaScript parseFloat prelude. -/
def jsWhitespace (c : Char) : Bool :=
  c = ' ' || c = '\t' || c = '\n' || c = '\r'

/-- Consume an optional leading sign, returning whether it was a minus. -/
def parseSign : List Char → Bool × List Char
  | '-' :: cs => (true, cs)
  | '+' :: cs => (false, cs)
  | cs => (false, cs)

/-- Parse an optional exponent part (e or E, optional sign, digits); an
exponent with no digits contributes nothing, as in parseFloat. -/
def parseExponent (cs : List Char) : ℤ :=
  match cs with
  | c :: rest =>
    if c = 'e' || c = 'E' then
      let sr := parseSign rest
      let ds := (takeDigits sr.2).1
      if ds = [] then 0
      else if sr.1 then -(digitsToNat ds : ℤ) else (digitsToNat ds : ℤ)
    else 0
  | [] => 0

/-- Model of JavaScript parseFloat: skip leading whitespace, read an
optional sign, then either the literal Infinity or the longest prefix
shaped digits [. digits] [exponent]; if no digit is consumed the result is
NaN. Finite results are exact rationals. -/
def parseFloat (s : String) : JsNum :=
  let cs := s.toList.dropWhile jsWhitespace
  let sr := parseSign cs
  let neg := sr.1
  let cs1 := sr.2
  if cs1.take 8 = "Infinity".toList then
    if neg then JsNum.negInf else JsNum.posInf
  else
    let ip := takeDigits cs1
    let intDs := ip.1
    let fp :=
      match ip.2 with
      | '.' :: rest => takeDigits rest
      | rest => ([], rest)
    let fracDs := fp.1
    if intDs = [] ∧ fracDs = [] then JsNum.nan
    else
      let mantissa : ℚ :=
        (digitsToNat intDs : ℚ) + (digitsToNat fracDs : ℚ) / (10 : ℚ) ^ fracDs.length
      let e := parseExponent fp.2
      let v := mantissa * (10 : ℚ) ^ e
      JsNum.finite (if neg then -v else v)

/-- Index.tsx handleOrderItem, acting on the selectedItems list: if some
selected entry has the same id, filter it out, otherwise append the full
item at the end. -/
def handleOrderItem (item : MenuItem) (currentItems : List MenuItem) : List MenuItem :=
  if currentItems.any (fun s => s.id == item.id) then
    currentItems.filter (fun s => s.id != item.id)
  else
    currentItems ++ [item]

/-- Which branch of handleOrderItem fired: true means the item was added
(the added toast), false means it was removed. -/
def handleOrderItemAdded (item : MenuItem) (currentItems : List MenuItem) : Bool :=
  !(currentItems.any fun s => s.id == item.id)

/-- Membership of an id in a selection list, as tested by the components
(existence of a selected entry with equal id). -/
def isSelectedId (l : List MenuItem) (i : ℤ) : Bool :=
  l.any fun s => s.id == i

/-- Iterate handleOrderItem on the same item n times. -/
def toggleN (item : MenuItem) : ℕ → List MenuItem → List MenuItem
  | 0, l => l
  | n + 1, l => handleOrderItem item (toggleN item n l)

/-- Top-level state of Index.tsx: the menu catalog, the selected items and
the derived category labels. -/
structure AppState where
  menu : List MenuItem
  selectedItems : List MenuItem
  categories : List String
deriving DecidableEq, Repr

/-- First-seen-order deduplication, the semantics of
Array.from(new Set(xs)) used for category extraction. -/
def uniqueCategories (l : List String) : List String :=
  l.foldl (fun acc c => if c ∈ acc then acc else acc ++ [c]) []

/-- State after the mount effect of Index.tsx: menu set to the loaded data,
selection empty, categories the distinct category strings in first-seen
order. -/
def initialState (menuData : List MenuItem) : AppState :=
  { menu := menuData
    selectedItems := []
    categories := uniqueCategories (menuData.map (fun item => item.category)) }

/-- The id computed by handleAddMenuItem:
Math.max(...menu.map(item => item.id), 0) + 1. -/
def newMenuItemId (menu : List MenuItem) : ℤ :=
  (menu.map (fun item => item.id)).foldr max 0 + 1

/-- The itemWithId record built by handleAddMenuItem from a draft. -/
def newItemWithId (newItem : DraftItem) (menu : List MenuItem) : MenuItem :=
  { id := newMenuItemId menu
    name := newItem.name
    price := newItem.price
    category := newItem.category
    icon := newItem.icon
    iconName := newItem.iconName
    image := newItem.image }

/-- Index.tsx handleAddMenuItem as a state step: append the item with its
fresh id to the menu, and append the category to categories when it is not
already present. The selection is untouched. -/
def addMenuItemStep (newItem : DraftItem) (s : AppState) : AppState :=
  { s with
    menu := s.menu ++ [newItemWithId newItem s.menu]
    categories :=
      if newItem.category ∈ s.categories then s.categories
      else s.categories ++ [newItem.category] }

/-- Index.tsx handleOrderItem as a state step: only selectedItems change. -/
def orderItemStep (item : MenuItem) (s : AppState) : AppState :=
  { s with selectedItems := handleOrderItem item s.selectedItems }

/-- Form state of AddItemDialog: the four text fields plus the resolved
emoji glyph. -/
structure FormState where
  name : String
  price : String
  category : String
  iconName : String
  selectedIcon : String
deriving DecidableEq, Repr

/-- AddItemDialog.tsx handleSubmit: returns none (no onAddItem call) when a
required field is empty or parseFloat of the price is NaN; otherwise the
draft passed to onAddItem. -/
def handleSubmit (f : FormState) : Option DraftItem :=
  if f.name = "" ∨ f.price = "" ∨ f.category = "" ∨ f.iconName = "" then none
  else
    let priceValue := parseFloat f.price
    if priceValue.isNaN then none
    else
      some
        { name := f.name
          price := priceValue
          category := f.category
          icon := f.selectedIcon
          iconName := f.iconName }

/-- Dialog submission followed by the Index.tsx mutator: when validation
fails nothing happens, otherwise handleAddMenuItem runs on the draft. -/
def submitStep (f : FormState) (s : AppState) : AppState :=
  match handleSubmit f with
  | none => s
  | some d => addMenuItemStep d s

/-- Items of one category, as filtered by both projectors. -/
def categoryItems (items : List MenuItem) (category : String) : List MenuItem :=
  items.filter fun item => item.category == category

/-- MenuCarousel visibleItems = Math.min(5, categoryItems.length). -/
def visibleItems (cis : List MenuItem) : ℤ :=
  min 5 (cis.length : ℤ)

/-- MenuCarousel maxIndex = Math.max(0, categoryItems.length - visibleItems). -/
def maxIndex (cis : List MenuItem) : ℤ :=
  max 0 ((cis.length : ℤ) - visibleItems cis)

/-- MenuCarousel goToPrevious: activeIndex becomes Math.max(0, prev - 1). -/
def goToPrevious (prevIndex : ℤ) : ℤ :=
  max 0 (prevIndex - 1)

/-- MenuCarousel goToNext: activeIndex becomes Math.min(maxIndex, prev + 1). -/
def goToNext (cis : List MenuItem) (prevIndex : ℤ) : ℤ :=
  min (maxIndex cis) (prevIndex + 1)

/-- MenuCarousel isItemSelected: some selected entry has an equal id. -/
def isItemSelectedCarousel (selectedItems : List MenuItem) (item : MenuItem) : Bool :=
  selectedItems.any fun s => s.id == item.id

/-- MenuCategoryView isItemSelected: some selected entry has an equal id. -/
def isItemSelectedView (selectedItems : List MenuItem) (item : MenuItem) : Bool :=
  selectedItems.any fun s => s.id == item.id

/-- One rendered item card: the item plus its selection highlight. -/
structure ItemCard where
  item : MenuItem
  selected : Bool
deriving DecidableEq, Repr

/-- Rendered output of MenuCarousel: either the empty-category placeholder
(heading plus the no-items message, no navigation buttons), or the heading
with navigation and the item cards shifted by activeIndex. -/
inductive CarouselOutput where
  | emptyPlaceholder (heading : String)
  | itemsWithNav (heading : String) (activeIndex : ℤ) (cards : List ItemCard)
deriving DecidableEq, Repr

/-- MenuCarousel render: zero items in the category gives the placeholder,
otherwise heading, navigation state and one card per category item. -/
def menuCarouselRender (items : List MenuItem) (category : String)
    (selectedItems : List MenuItem) (activeIndex : ℤ) : CarouselOutput :=
  let cis := categoryItems items category
  if cis.length = 0 then CarouselOutput.emptyPlaceholder category
  else
    CarouselOutput.itemsWithNav category activeIndex
      (cis.map fun item => ⟨item, isItemSelectedCarousel selectedItems item⟩)

/-- Rendered output of MenuCategoryView when it renders at all: the heading
and one card per category item. -/
structure GridOutput where
  heading : String
  cards : List ItemCard
deriving DecidableEq, Repr

/-- MenuCategoryView render: zero items in the category gives none (the
component returns null and the whole section is suppressed), otherwise the
grid of cards. -/
def menuCategoryViewRender (items : List MenuItem) (category : String)
    (selectedItems : List MenuItem) : Option GridOutput :=
  let cis := categoryItems items category
  if cis.length = 0 then none
  else some ⟨category, cis.map fun item => ⟨item, isItemSelectedView selectedItems item⟩⟩

/-- Which component Index.tsx rendered for a category. -/
inductive CategoryView where
  | carousel (out : CarouselOutput)
  | grid (out : Option GridOutput)
deriving DecidableEq, Repr

/-- Whether the rendered view is the windowed (carousel) projector. -/
def CategoryView.isWindowed : CategoryView → Bool
  | .carousel _ => true
  | .grid _ => false

/-- The per-category dispatch in Index.tsx: isMobile renders
MenuCategoryView (the flat grid), otherwise MenuCarousel. -/
def renderCategoryView (isMobile : Bool) (items : List MenuItem) (category : String)
    (selectedItems : List MenuItem) (activeIndex : ℤ) : CategoryView :=
  if isMobile then CategoryView.grid (menuCategoryViewRender items category selectedItems)
  else CategoryView.carousel (menuCarouselRender items category selectedItems activeIndex)

/-- OrderSummary totalPrice: selectedItems.reduce((sum, item) => sum + item.price, 0). -/
def totalPrice (selectedItems : List MenuItem) : JsNum :=
  selectedItems.foldl (fun sum item => jsAdd sum item.price) (JsNum.finite 0)

/-- OrderSummary itemCount: selectedItems.length. -/
def itemCount (selectedItems : List MenuItem) : ℕ :=
  selectedItems.length

/-- Concrete form whose price field is the string Infinity, used to settle
the validation claim. -/
def infinityForm : FormState :=
  { name := "Tea", price := "Infinity", category := "Drinks",
    iconName := "cup-soda", selectedIcon := "X" }

/-- Concrete form with an empty name, a failing draft. -/
def emptyNameForm : FormState :=
  { name := "", price := "2.5", category := "Drinks",
    iconName := "cup-soda", selectedIcon := "X" }

/-- Concrete catalog entry used by witnesses. -/
def coffeeItem : MenuItem :=
  { id := 1, name := "Coffee", price := JsNum.finite 3, category := "Drinks",
    icon := "C", iconName := "coffee" }

/-- Concrete draft used by witnesses. -/
def teaDraft : DraftItem :=
  { name := "Tea", price := JsNum.finite 2, category := "Drinks",
    icon := "T", iconName := "cup-soda" }

/-- Toggling an item flips the membership of its id. -/
theorem isSelectedId_toggle (item : MenuItem) (l : List MenuItem) :
    isSelectedId (handleOrderItem item l) item.id = !(isSelectedId l item.id) := by
  unfold handleOrderItem isSelectedId
  by_cases h : (l.any fun s => s.id == item.id) = true
  · rw [if_pos h, h, Bool.not_true, List.any_eq_false]
    intro s hs
    rw [List.mem_filter] at hs
    simpa using hs.2
  · rw [if_neg h, List.any_append, Bool.not_eq_true] at *
    simp [h]

/-- Membership of the toggled id after n toggles, by induction. -/
theorem toggleN_parity (item : MenuItem) (n : ℕ) (l : List MenuItem) :
    isSelectedId (toggleN item n l) item.id =
      (if n % 2 = 0 then isSelectedId l item.id else !(isSelectedId l item.id)) := by
  induction n with
  | zero => simp [toggleN]
  | succ n ih =>
    rw [show toggleN item (n + 1) l = handleOrderItem item (toggleN item n l) from rfl,
      isSelectedId_toggle, ih]
    rcases Nat.mod_two_eq_zero_or_one n with h | h
    · have h2 : (n + 1) % 2 = 1 := by omega
      simp [h, h2]
    · have h2 : (n + 1) % 2 = 0 := by omega
      simp [h, h2]

/-- C1: toggling removes the entry when its id is already a member and
otherwise appends the full entry, the reported added flag is the negation
of prior membership, and membership of the id after n toggles equals the
prior membership for even n and its flip for odd n. -/
theorem toggle_membership_parity (item : MenuItem) (current : List MenuItem) :
    (handleOrderItemAdded item current = !(isSelectedId current item.id))
    ∧ (isSelectedId current item.id = true →
        handleOrderItem item current = current.filter (fun s => s.id != item.id)
        ∧ isSelectedId (handleOrderItem item current) item.id = false)
    ∧ (isSelectedId current item.id = false →
        handleOrderItem item current = current ++ [item]
        ∧ isSelectedId (handleOrderItem item current) item.id = true)
    ∧ (∀ n : ℕ, isSelectedId (toggleN item n current) item.id =
        if n % 2 = 0 then isSelectedId current item.id
        else !(isSelectedId current item.id)) := by
  refine ⟨rfl, fun h => ⟨?_, ?_⟩, fun h => ⟨?_, ?_⟩, fun n => toggleN_parity item n current⟩
  · simp only [isSelectedId] at h
    simp only [handleOrderItem]
    rw [if_pos h]
  · rw [isSelectedId_toggle, h, Bool.not_true]
  · simp only [isSelectedId] at h
    simp only [handleOrderItem]
    rw [if_neg (by simp [h])]
  · rw [isSelectedId_toggle, h, Bool.not_false]

/-- Witness for C1 at a concrete input: toggling on an empty selection
appends the item and makes it selected. -/
theorem toggle_membership_parity_witness :
    handleOrderItem coffeeItem [] = [] ++ [coffeeItem]
    ∧ isSelectedId (handleOrderItem coffeeItem []) coffeeItem.id = true :=
  (toggle_membership_parity coffeeItem []).2.2.1 rfl

/-- Every element of a list of integers is bounded by its foldr max 0. -/
theorem le_foldr_max (l : List ℤ) (x : ℤ) : x ∈ l → x ≤ l.foldr max 0 := by
  induction l with
  | nil => intro hx; cases hx
  | cons a t ih =>
    intro hx
    rcases List.mem_cons.mp hx with h | h
    · subst h; exact le_max_left _ _
    · exact le_trans (ih h) (le_max_right _ _)

/-- C2: the catalog mutator appends exactly one entry at the end, so the
length grows by one, and the assigned id is max of the existing ids and 0
plus 1, strictly greater than every pre-existing id. -/
theorem createEntry_fresh_id (d : DraftItem) (s : AppState) :
    (addMenuItemStep d s).menu.length = s.menu.length + 1
    ∧ (addMenuItemStep d s).menu = s.menu ++ [newItemWithId d s.menu]
    ∧ (newItemWithId d s.menu).id = (s.menu.map fun i => i.id).foldr max 0 + 1
    ∧ ∀ e ∈ s.menu, e.id < (newItemWithId d s.menu).id := by
  refine ⟨by simp [addMenuItemStep], rfl, rfl, fun e he => ?_⟩
  have hle : e.id ≤ (s.menu.map fun i => i.id).foldr max 0 :=
    le_foldr_max _ e.id (List.mem_map_of_mem _ he)
  have : (newItemWithId d s.menu).id = (s.menu.map fun i => i.id).foldr max 0 + 1 := rfl
  omega

/-- Witness for C2 at a concrete input: adding the tea draft to a catalog
holding the coffee item assigns an id above the coffee id. -/
theorem createEntry_fresh_id_witness :
    coffeeItem.id < (newItemWithId teaDraft [coffeeItem]).id :=
  (createEntry_fresh_id teaDraft (AppState.mk [coffeeItem] [] ["Drinks"])).2.2.2
    coffeeItem (List.mem_singleton.mpr rfl)

/-- The failure cases of handleSubmit: a required field is the empty string
or parseFloat of the price is NaN. -/
theorem handleSubmit_eq_none_iff (f : FormState) :
    handleSubmit f = none ↔
      f.name = "" ∨ f.category = "" ∨ f.iconName = "" ∨ f.price = ""
        ∨ (parseFloat f.price).isNaN = true := by
  simp only [handleSubmit]
  split_ifs with h1 h2
  · simp only [true_iff]
    tauto
  · simp only [true_iff]
    tauto
  · simp only [reduceCtorEq, false_iff]
    push_neg at h1
    simp only [Bool.not_eq_true] at h2
    simp [h1.1, h1.2.1, h1.2.2.1, h1.2.2.2, h2]

/-- C3 amended: createEntry fails exactly when name, category, iconName or
price is empty, or the price does not parse to a numeric value at all
(parseFloat yields NaN); a price parsing to an infinity is accepted. On
every failure the whole state, in particular the catalog, is unchanged. -/
theorem createEntry_validation (f : FormState) (s : AppState) :
    (handleSubmit f = none ↔
      f.name = "" ∨ f.category = "" ∨ f.iconName = "" ∨ f.price = ""
        ∨ (parseFloat f.price).isNaN = true)
    ∧ (handleSubmit f = none → submitStep f s = s) := by
  refine ⟨handleSubmit_eq_none_iff f, fun h => ?_⟩
  unfold submitStep
  rw [h]

/-- Witness for C3 at a concrete input: the empty-name form fails and
leaves the state unchanged. -/
theorem createEntry_validation_witness :
    submitStep emptyNameForm (AppState.mk [] [] []) = AppState.mk [] [] [] :=
  (createEntry_validation emptyNameForm (AppState.mk [] [] [])).2
    ((createEntry_validation emptyNameForm (AppState.mk [] [] [])).1.mpr (Or.inl rfl))

/-- C3 counterexample: the price string Infinity does not parse to a finite
numeric value, yet validation succeeds and an entry is appended, so failure
is not equivalent to the price not being finite. -/
theorem createEntry_accepts_infinite_price :
    (parseFloat infinityForm.price).isFinite = false
    ∧ (handleSubmit infinityForm).isSome = true
    ∧ (submitStep infinityForm (AppState.mk [] [] [])).menu.length = 1 :=
  ⟨rfl, rfl, rfl⟩

/-- C4: the windowing projector computes visibleCount = min 5 n and
maxIndex = max 0 (n - 5), next moves to min maxIndex (i + 1), previous to
max 0 (i - 1), and navigation never wraps: next at maxIndex and previous
at 0 leave the index unchanged. -/
theorem carousel_window_clamped (items : List MenuItem) (category : String) :
    visibleItems (categoryItems items category)
      = min 5 ((categoryItems items category).length : ℤ)
    ∧ maxIndex (categoryItems items category)
      = max 0 (((categoryItems items category).length : ℤ) - 5)
    ∧ goToNext (categoryItems items category) (maxIndex (categoryItems items category))
      = maxIndex (categoryItems items category)
    ∧ goToPrevious 0 = 0
    ∧ (∀ i : ℤ, goToNext (categoryItems items category) i
          = min (maxIndex (categoryItems items category)) (i + 1)
        ∧ goToPrevious i = max 0 (i - 1)) := by
  refine ⟨rfl, ?_, ?_, by decide, fun i => ⟨rfl, rfl⟩⟩
  · unfold maxIndex visibleItems
    rcases le_total ((categoryItems items category).length : ℤ) 5 with h | h
    · rw [min_eq_right h, sub_self, max_eq_left le_rfl, eq_comm,
        max_eq_left (by omega)]
    · rw [min_eq_left h]
  · unfold goToNext
    exact min_eq_left (by omega)

/-- Folding jsAdd over finite prices from a finite accumulator adds the
carried rationals exactly. -/
theorem foldl_jsAdd_finite (l : List MenuItem) (q : ℚ)
    (h : ∀ i ∈ l, i.price.isFinite = true) :
    l.foldl (fun sum item => jsAdd sum item.price) (JsNum.finite q) =
      JsNum.finite (q + (l.map fun i => i.price.toQ).sum) := by
  induction l generalizing q with
  | nil => simp
  | cons a t ih =>
    have ha := h a (List.mem_cons_self a t)
    obtain ⟨p, hp⟩ : ∃ p, a.price = JsNum.finite p := by
      cases hpr : a.price
      · rw [hpr] at ha; simp [JsNum.isFinite] at ha
      · rw [hpr] at ha; simp [JsNum.isFinite] at ha
      · rw [hpr] at ha; simp [JsNum.isFinite] at ha
      · exact ⟨_, rfl⟩
    rw [List.foldl_cons, hp]
    have hstep : jsAdd (JsNum.finite q) (JsNum.finite p) = JsNum.finite (q + p) := rfl
    rw [hstep, ih (q + p) (fun i hi => h i (List.mem_cons_of_mem a hi))]
    simp only [List.map_cons, List.sum_cons, hp, JsNum.toQ]
    exact congrArg JsNum.finite (by ring)

/-- C5: the order aggregator's total is the exact sum of the selected
prices, its count the number of selected items, and both are zero for the
empty selection. -/
theorem order_aggregator_totals (items : List MenuItem)
    (h : ∀ i ∈ items, i.price.isFinite = true) :
    totalPrice items = JsNum.finite ((items.map fun i => i.price.toQ).sum)
    ∧ itemCount items = items.length
    ∧ totalPrice [] = JsNum.finite 0
    ∧ itemCount [] = 0 := by
  refine ⟨?_, rfl, rfl, rfl⟩
  rw [totalPrice, foldl_jsAdd_finite items 0 h, zero_add]

/-- Witness for C5 at a concrete input: the singleton coffee selection. -/
theorem order_aggregator_totals_witness :
    totalPrice [coffeeItem] = JsNum.finite (([coffeeItem].map fun i => i.price.toQ).sum) :=
  (order_aggregator_totals [coffeeItem]
    (by intro i hi; rw [List.mem_singleton] at hi; rw [hi]; rfl)).1

/-- C6 counterexample: on a narrow surface (isMobile true) the rendered
view is the flat grid, not the windowing carousel, and on a wide surface
it is the windowing carousel; the claimed assignment is reversed. -/
theorem narrow_surface_uses_flat_projector :
    (renderCategoryView true [] "Drinks" [] 0).isWindowed = false
    ∧ (renderCategoryView false [] "Drinks" [] 0).isWindowed = true :=
  ⟨rfl, rfl⟩

/-- C6 amended: when the viewport signal reports a narrow surface the Flat
Projector (grid of all matching items) is active, and when the surface is
wide the Category Windowing Projector (paged carousel) is active. -/
theorem view_dispatch (items : List MenuItem) (category : String)
    (sel : List MenuItem) (ai : ℤ) :
    renderCategoryView true items category sel ai
      = CategoryView.grid (menuCategoryViewRender items category sel)
    ∧ renderCategoryView false items category sel ai
      = CategoryView.carousel (menuCarouselRender items category sel ai)
    ∧ ∀ isMobile : Bool,
        (renderCategoryView isMobile items category sel ai).isWindowed = !isMobile := by
  refine ⟨rfl, rfl, fun m => ?_⟩
  cases m <;> rfl

/-- Appending one label to the input of uniqueCategories appends it to the
output exactly when it is not already present. -/
theorem uniqueCategories_append (l : List String) (c : String) :
    uniqueCategories (l ++ [c]) =
      if c ∈ uniqueCategories l then uniqueCategories l
      else uniqueCategories l ++ [c] := by
  unfold uniqueCategories
  rw [List.foldl_append, List.foldl_cons, List.foldl_nil]

/-- C7: initialization derives categories as the distinct category strings
of the catalog in first-seen order, the mutator preserves that invariant by
appending an unseen category at the end, and the prior categories are never
removed (the new list extends the old one). -/
theorem categories_first_seen_invariant (menuData : List MenuItem)
    (d : DraftItem) (s : AppState) :
    (initialState menuData).categories
      = uniqueCategories ((initialState menuData).menu.map fun i => i.category)
    ∧ (s.categories = uniqueCategories (s.menu.map fun i => i.category) →
        (addMenuItemStep d s).categories
          = uniqueCategories ((addMenuItemStep d s).menu.map fun i => i.category))
    ∧ ∃ t, (addMenuItemStep d s).categories = s.categories ++ t := by
  refine ⟨rfl, fun h => ?_, ?_⟩
  · have hmap : (addMenuItemStep d s).menu.map (fun i => i.category)
        = (s.menu.map fun i => i.category) ++ [d.category] := by
      simp [addMenuItemStep, newItemWithId]
    rw [hmap, uniqueCategories_append, ← h]
    rfl
  · by_cases hm : d.category ∈ s.categories
    · exact ⟨[], by simp [addMenuItemStep, hm]⟩
    · exact ⟨[d.category], by simp [addMenuItemStep, hm]⟩

/-- Witness for C7 at a concrete input: adding the tea draft to the state
holding the coffee item keeps categories equal to the distinct categories
of the catalog. -/
theorem categories_first_seen_invariant_witness :
    (addMenuItemStep teaDraft (AppState.mk [coffeeItem] [] ["Drinks"])).categories
      = uniqueCategories
          ((addMenuItemStep teaDraft (AppState.mk [coffeeItem] [] ["Drinks"])).menu.map
            fun i => i.category) :=
  (categories_first_seen_invariant [] teaDraft (AppState.mk [coffeeItem] [] ["Drinks"])).2.1
    (by rfl)

/-- C8: for a category with zero matching items the windowing carousel
renders the explicit empty placeholder (heading plus message, no navigation
state) while the flat grid renders nothing at all. -/
theorem empty_category_asymmetry (items : List MenuItem) (category : String)
    (sel : List MenuItem) (ai : ℤ)
    (h : (categoryItems items category).length = 0) :
    menuCarouselRender items category sel ai = CarouselOutput.emptyPlaceholder category
    ∧ menuCategoryViewRender items category sel = none := by
  constructor
  · unfold menuCarouselRender
    rw [if_pos h]
  · unfold menuCategoryViewRender
    rw [if_pos h]

/-- Witness for C8 at a concrete input: the empty catalog has no Pastries
items, the carousel shows the placeholder, the grid shows nothing. -/
theorem empty_category_asymmetry_witness :
    menuCarouselRender [] "Pastries" [] 0 = CarouselOutput.emptyPlaceholder "Pastries"
    ∧ menuCategoryViewRender [] "Pastries" [] = none :=
  empty_category_asymmetry [] "Pastries" [] 0 rfl

/-- C9: the flat grid and the windowing carousel decide selection of an
item by the same test, the existence of a selected entry with an equal id,
so their selection predicates agree as functions of the selection set. -/
theorem projectors_agree_on_selection (sel : List MenuItem) :
    (fun item => isItemSelectedView sel item) = (fun item => isItemSelectedCarousel sel item)
    ∧ ∀ item : MenuItem,
        isItemSelectedView sel item = isItemSelectedCarousel sel item
        ∧ isItemSelectedView sel item = (sel.any fun s => s.id == item.id) :=
  ⟨rfl, fun _ => ⟨rfl, rfl⟩⟩

/-- C10: toggling changes only the selection (catalog and categories are
untouched), and the add-menu-item pipeline, successful or not, changes only
the catalog and categories (the selection is untouched). -/
theorem state_frame_conditions (item : MenuItem) (f : FormState)
    (d : DraftItem) (s : AppState) :
    (orderItemStep item s).menu = s.menu
    ∧ (orderItemStep item s).categories = s.categories
    ∧ (addMenuItemStep d s).selectedItems = s.selectedItems
    ∧ (submitStep f s).selectedItems = s.selectedItems := by
  refine ⟨rfl, rfl, rfl, ?_⟩
  unfold submitStep
  cases handleSubmit f
  · rfl
  · rfl
